import Mathlib

/-
Verification development for `src/app_fastapi.py` (japanese_conjugation_search).

The file shallowly embeds the data-loading / chunking / caching / search core
of the application:

- a pandas `DataFrame` is a list of column names plus a list of rows, where a
  cell is `Option String` (`none` models a missing value, NaN);
- `split_data_into_chunks` embeds the Python function of the same name;
- `load_data` embeds the loader over an abstract file-system environment
  (a present file is modelled as an already-parsed DataFrame: the encoding
  fallback of `load_csv_data` is I/O and is not what the claims are about);
- `get_all_chunks` / `_refresh_cache` embed the stale-while-revalidate cache
  as an explicit state-passing step function; time is an integer number of
  seconds, and the launch of the background refresh thread is recorded in the
  `spawned` field of the result (the thread body is `_refresh_cache` itself);
- `ensure_initialized` embeds the initializer as a sequential step function
  (the bounded 100ms poll loop of the Python code observes no state change in
  a sequential model, so it collapses to its single condition check);
- `index_search` embeds the search portion of the `index` request handler
  over an abstract `RegexEngine` interface to Python's `re`: pandas
  `Series.str.contains` interprets the query as a regular expression
  (`regex=True` default) and raises on a non-compiling pattern, which the
  per-chunk `except` turns into skipping the chunk. Theorems constrain the
  engine only on literal, metacharacter-free patterns, where `re.search`
  is documented to coincide with the substring test.

String primitives used by the Python code (`str.strip`, `str.lower`, the
regex classes of `re.sub`) are modelled as executable functions on `List Char`
(`pyStrip`, `lowerChars`, ...); case folding and the `\w` class are modelled
on ASCII, with every non-ASCII character treated as a word character.
-/

set_option maxRecDepth 4000

deriving instance DecidableEq for Except

/-- A row of a pandas DataFrame: the list of its cells in column order.
A cell is `none` when the value is missing (NaN), `some s` when it holds
a value whose `str()` rendering is `s`. -/
abbrev Row := List (Option String)

/-- A parsed tabular source file: column names plus rows. -/
structure DataFrame where
  columns : List String
  rows : List Row
deriving DecidableEq

/-- Models Python `str(cell)` on a DataFrame cell: a missing value (NaN)
renders as the string "nan". -/
def cellStr : Option String → String
  | some s => s
  | none => "nan"

/-- Models `str.lower()` on the character list of a string (ASCII folding). -/
def lowerChars (l : List Char) : List Char := l.map Char.toLower

/-- Models Python `str.strip()`: drop whitespace from both ends. -/
def pyStrip (s : String) : String :=
  ⟨((s.data.dropWhile Char.isWhitespace).reverse.dropWhile Char.isWhitespace).reverse⟩

/-- Models the regex class `\w` of `re.sub(r'[^\w\s-]', '', ...)`: ASCII
alphanumerics and underscore, with every non-ASCII character treated as a
word character (an approximation of the Unicode word-character classes). -/
def isWordChar (c : Char) : Bool := c.isAlphanum || c == '_' || 128 ≤ c.toNat

/-- Models the regex class `\s`. -/
def isSpaceChar (c : Char) : Bool := c.isWhitespace

/-- One step of `collapseGo`: the flag records whether the previous character
belonged to a dash/whitespace run (so the run's dash was already emitted). -/
def collapseGo : Bool → List Char → List Char
  | _, [] => []
  | inRun, c :: rest =>
    if c == '-' || isSpaceChar c then
      (if inRun then [] else ['-']) ++ collapseGo true rest
    else
      c :: collapseGo false rest

/-- Models `re.sub(r'[-\s]+', '-', ...)`: every maximal run of dashes and
whitespace becomes a single dash (implemented with an in-run flag so the
definition is structurally recursive and computes in the kernel). -/
def collapseDashSpace (l : List Char) : List Char := collapseGo false l

/-- Models `str.strip('-')`: drop dashes from both ends. -/
def stripDashes (l : List Char) : List Char :=
  ((l.dropWhile (fun c => c == '-')).reverse.dropWhile (fun c => c == '-')).reverse

/-- Embeds the base-slug computation of `split_data_into_chunks`
(`src/app_fastapi.py` lines 294-296): lower-case the title, delete every
character that is not a word character, whitespace or dash, collapse runs of
dashes/whitespace to a single dash, and strip leading/trailing dashes. -/
def base_slug (title : String) : String :=
  ⟨stripDashes (collapseDashSpace
    ((lowerChars title.data).filter (fun c => isWordChar c || isSpaceChar c || c == '-')))⟩

/-- One cached entry ("chunk") as built by `split_data_into_chunks`
(`src/app_fastapi.py` lines 300-307). -/
structure Chunk where
  title : String
  subtitle : String
  slug : String
  source : String
  data : List Row
  columns : List String
deriving DecidableEq

/-- Embeds the body of the `while` loop of `split_data_into_chunks` that
builds one chunk record from a group of rows (`src/app_fastapi.py` lines
286-307). `chunk_rows` is the slice `df.iloc[start_idx:end_idx]`; the caller
guarantees it is non-empty (`iloc[0, j]` on an empty or column-less slice
would raise in Python; a missing position is modelled as a NaN cell). -/
def mkChunk (df : DataFrame) (source : String) (chunk_rows : List Row) : Chunk :=
  let r0 := chunk_rows.getD 0 []
  let title := pyStrip (cellStr (r0.getD 0 none))
  let subtitle :=
    if 1 < df.columns.length then
      match r0.getD 1 none with
      | some v => pyStrip v
      | none => ""
    else ""
  let bs := base_slug title
  let slug := if source ≠ "" then bs ++ "-" ++ source else bs
  { title := title, subtitle := subtitle, slug := slug, source := source,
    data := chunk_rows, columns := df.columns }

/-- Embeds the `while start_idx < len(df)` loop of `split_data_into_chunks`:
each iteration slices the next up-to-4 rows (`df.iloc[start_idx:end_idx]`)
and appends the chunk built from them (the slice is never empty while the
loop runs, so the source's `if len(chunk_df) > 0` guard always holds). The
loop is written as structural recursion — five-or-more remaining rows means
the current group is exactly the next four — so the definition computes in
the kernel. -/
def split_go (df : DataFrame) (source : String) : List Row → List Chunk
  | [] => []
  | r1 :: r2 :: r3 :: r4 :: r5 :: rest =>
      mkChunk df source [r1, r2, r3, r4] :: split_go df source (r5 :: rest)
  | l => [mkChunk df source l]

/-- Embeds `split_data_into_chunks(df, source)` (`src/app_fastapi.py` lines
269-311). -/
def split_data_into_chunks (df : DataFrame) (source : String) : List Chunk :=
  split_go df source df.rows

/-- The file-system environment seen by the loader: for each configured CSV
path, `none` when the file does not exist, `some df` when it exists and
parses to `df` (the multi-encoding fallback of `load_csv_data` is I/O and is
abstracted as a successful parse). -/
structure Env where
  verbCsv : Option DataFrame
  adjCsv : Option DataFrame
deriving DecidableEq

/-- The message of the `FileNotFoundError` raised by `load_data` (and of the
startup validation in `ensure_initialized`); the spec calls this failure
`NoSourcesError`. -/
def noCsvMsg : String := "No CSV files found"

/-- Embeds `load_data()` (`src/app_fastapi.py` lines 225-267): chunks of the
verb source (if its path exists) followed by chunks of the adjective source
(if its path exists); a missing path is skipped (only a warning is logged);
raises `FileNotFoundError` when the combined chunk list is empty. -/
def load_data (env : Env) : Except String (List Chunk) :=
  let all_chunks :=
    (match env.verbCsv with
     | some df => split_data_into_chunks df ("verb")
     | none => []) ++
    (match env.adjCsv with
     | some df => split_data_into_chunks df ("adjective")
     | none => [])
  if all_chunks.length = 0 then Except.error noCsvMsg else Except.ok all_chunks

/-- The module-level cache cell of `src/app_fastapi.py` (lines 152-155):
`_cache_data`, `_cache_timestamp`, `_cache_loading`. Time is modelled as an
integer number of seconds. -/
structure CacheState where
  cache_data : Option (List Chunk)
  cache_timestamp : Int
  cache_loading : Bool
deriving DecidableEq

/-- `CACHE_TTL = 600` (`src/app_fastapi.py` line 156). -/
def CACHE_TTL : Int := 600

/-- `CACHE_REFRESH_THRESHOLD = 540` (`src/app_fastapi.py` line 157). This
constant is referenced nowhere else in the source. -/
def CACHE_REFRESH_THRESHOLD : Int := 540

/-- Embeds `_refresh_cache()` (`src/app_fastapi.py` lines 339-361) as a step
function. `loadResult` is the outcome of the `load_data()` call (the
environment at refresh time). Returns the value returned (or the exception
raised, as `Except.error`) together with the cache state afterwards. -/
def _refresh_cache (now : Int) (loadResult : Except String (List Chunk))
    (s : CacheState) : Except String (List Chunk) × CacheState :=
  match loadResult with
  | Except.ok chunks =>
      (Except.ok chunks, { cache_data := some chunks, cache_timestamp := now,
                           cache_loading := false })
  | Except.error e =>
      let s' := { s with cache_loading := false }
      match s.cache_data with
      | some d => (Except.ok d, s')
      | none => (Except.error e, s')

/-- Result of one `get_all_chunks()` call: the returned value (or raised
exception), the cache state afterwards, how many background refresh threads
the call started (`spawned`), and whether it performed a synchronous
`_refresh_cache()` call (`syncRefresh`). -/
structure ReadResult where
  result : Except String (List Chunk)
  state : CacheState
  spawned : Nat
  syncRefresh : Bool
deriving DecidableEq

/-- Embeds `get_all_chunks()` (`src/app_fastapi.py` lines 313-337).
`loadResult` is the outcome `load_data()` would have in the current
environment; it is consulted only on the synchronous-refresh path. A
background thread launch (`threading.Thread(target=_refresh_cache).start()`)
is recorded in `spawned`; its body is not executed in this step. -/
def get_all_chunks (now : Int) (loadResult : Except String (List Chunk))
    (s : CacheState) : ReadResult :=
  match s.cache_data with
  | some d =>
      let cache_age := now - s.cache_timestamp
      if cache_age < CACHE_TTL then
        { result := Except.ok d, state := s, spawned := 0, syncRefresh := false }
      else if cache_age < CACHE_TTL * 2 then
        if !s.cache_loading then
          { result := Except.ok d, state := { s with cache_loading := true },
            spawned := 1, syncRefresh := false }
        else
          { result := Except.ok d, state := s, spawned := 0, syncRefresh := false }
      else
        let r := _refresh_cache now loadResult s
        { result := r.1, state := r.2, spawned := 0, syncRefresh := true }
  | none =>
      let r := _refresh_cache now loadResult s
      { result := r.1, state := r.2, spawned := 0, syncRefresh := true }

/-- The initializer's state: the `_initialized` flag plus the cache cell. -/
structure InitState where
  initialized : Bool
  cache : CacheState
deriving DecidableEq

/-- Embeds `ensure_initialized()` (`src/app_fastapi.py` lines 367-473) as a
sequential step function. The bounded poll loop observes no state change in
a sequential model, so it collapses to its single condition check
(`_cache_loading and _cache_data is not None`). On an exception the error
message is returned together with the state at raise time (`_initialized`
is set only after a successful `get_all_chunks()` call). -/
def ensure_initialized (env : Env) (now : Int) (st : InitState) :
    Except (String × InitState) InitState :=
  if st.initialized then Except.ok st
  else if st.cache.cache_loading && st.cache.cache_data.isSome then
    Except.ok { st with initialized := true }
  else if env.verbCsv.isNone && env.adjCsv.isNone then
    Except.error (noCsvMsg, st)
  else
    let out := get_all_chunks now (load_data env) st.cache
    match out.result with
    | Except.ok _ => Except.ok { initialized := true, cache := out.state }
    | Except.error e => Except.error (e, { initialized := false, cache := out.state })

/-- Models `needle.isPrefixOf hay` on character lists (used to build the
substring test of Python's `in`). -/
def leadMatch : List Char → List Char → Bool
  | [], _ => true
  | _ :: _, [] => false
  | a :: as, b :: bs => a == b && leadMatch as bs

/-- Models Python's substring operator `needle in hay` on character lists. -/
def containsSub (needle : List Char) : List Char → Bool
  | [] => needle.isEmpty
  | c :: rest => leadMatch needle (c :: rest) || containsSub needle rest

/-- Abstract interface to Python's `re` engine as pandas
`Series.str.contains(pat, na=False)` uses it with its default `regex=True`:
`compiles pat` tells whether `pat` compiles as a regular expression, and
`search pat hay` whether the compiled pattern matches somewhere inside `hay`
(meaningful only when `compiles pat` holds — `str.contains` raises on a
non-compiling pattern, independently of the cell values). The engine is kept
abstract; theorems constrain it only on literal (metacharacter-free)
patterns, where `re.search` is documented to be the substring test
(`LiteralRegexSemantics`). -/
structure RegexEngine where
  compiles : List Char → Bool
  search : List Char → List Char → Bool

/-- The characters that are special in Python regular expressions (the two
codepoints 123 and 125 are the opening and closing curly braces). -/
def isRegexMetaChar (c : Char) : Bool :=
  c == '.' || c == '^' || c == '$' || c == '*' || c == '+' || c == '?' ||
  c == '[' || c == ']' || c == '\\' || c == '|' || c == '(' || c == ')' ||
  c.toNat == 123 || c.toNat == 125

/-- A pattern containing no regex metacharacter: `re.search` with such a
pattern is exactly the substring test. -/
def isLiteralPattern (l : List Char) : Bool := l.all (fun c => !isRegexMetaChar c)

/-- A regex engine behaves as documented on literal patterns: they compile,
and searching with them is the substring test. Python's `re` module has this
property. -/
def LiteralRegexSemantics (E : RegexEngine) : Prop :=
  ∀ pat, isLiteralPattern pat = true →
    E.compiles pat = true ∧ ∀ hay, E.search pat hay = containsSub pat hay

/-- Embeds the per-chunk body of the search loop in the `index` handler
(`src/app_fastapi.py` lines 515-533): the lowered query is first tested as a
literal substring (Python `in`) of the lowered title; otherwise each column
of the chunk's data is rendered by `astype(str)` (a NaN cell becomes the
text "nan"), lowered, and tested with `Series.str.contains(query, na=False)`
— a regex search over the column's cells. A non-compiling pattern makes
`str.contains` raise and the per-chunk `except` then skips the chunk; a
compiling pattern never raises, so the outcome is whether some cell of some
column matches. Returns whether the chunk is appended to `results`. -/
def chunk_step (E : RegexEngine) (ql : List Char) (c : Chunk) : Bool :=
  if containsSub ql (lowerChars c.title.data) then true
  else if E.compiles ql then
    (List.range c.columns.length).any (fun i =>
      c.data.any (fun row => E.search ql (lowerChars (cellStr (row.getD i none)).data)))
  else false

/-- Embeds the search portion of the `index` handler (`src/app_fastapi.py`
lines 495-533) over an abstract regex engine: the query is stripped; a falsy
(empty) stripped query leaves `results` empty; otherwise each chunk, in
cache order, is appended exactly once if `chunk_step` holds of it. -/
def index_search (E : RegexEngine) (q : String) (chunks : List Chunk) :
    List Chunk :=
  let query := pyStrip q
  if query.data.isEmpty then []
  else chunks.filter (chunk_step E (lowerChars query.data))

/-- The substring-semantics match predicate used to state the amended claim
about search: the lowered query is a substring of the lowered title or of
some cell rendered by `astype(str)` (missing cells render as "nan") and
lowered. The search behaves exactly like this whenever the query is a
literal pattern. -/
def litMatch (ql : List Char) (c : Chunk) : Bool :=
  containsSub ql (lowerChars c.title.data) ||
  (List.range c.columns.length).any (fun i =>
    c.data.any (fun row => containsSub ql (lowerChars (cellStr (row.getD i none)).data)))

/-! ### Claims about the cache core (`get_all_chunks` / `_refresh_cache`) -/

/-- C1: for every cache state in which a snapshot exists and its age
satisfies `TTL <= age < 2*TTL`, `get_all_chunks` returns the current (stale)
snapshot unchanged without performing a synchronous reload; if no refresh is
in flight it sets the refreshing flag and launches exactly one background
refresh, and if a refresh is already in flight it launches none. -/
theorem claim_C1 (now ts : Int) (d : List Chunk) (loading : Bool)
    (lr : Except String (List Chunk))
    (h1 : CACHE_TTL ≤ now - ts) (h2 : now - ts < CACHE_TTL * 2) :
    (get_all_chunks now lr ⟨some d, ts, loading⟩).result = Except.ok d ∧
    (get_all_chunks now lr ⟨some d, ts, loading⟩).syncRefresh = false ∧
    (get_all_chunks now lr ⟨some d, ts, loading⟩).spawned
      = (if loading then 0 else 1) ∧
    (get_all_chunks now lr ⟨some d, ts, loading⟩).state.cache_data = some d ∧
    (get_all_chunks now lr ⟨some d, ts, loading⟩).state.cache_timestamp = ts ∧
    (get_all_chunks now lr ⟨some d, ts, loading⟩).state.cache_loading = true := by
  have hn : ¬ (now - ts < CACHE_TTL) := by omega
  cases loading <;>
    simp [get_all_chunks, hn, h2]

/-- Closed witness for `claim_C1` at a concrete stale state (age 600, no
refresh in flight). -/
theorem claim_C1_witness :
    CACHE_TTL ≤ (600 : Int) - 0 ∧ (600 : Int) - 0 < CACHE_TTL * 2 ∧
    (get_all_chunks 600 (Except.ok []) ⟨some [], 0, false⟩).result
      = Except.ok [] ∧
    (get_all_chunks 600 (Except.ok []) ⟨some [], 0, false⟩).spawned = 1 ∧
    (get_all_chunks 600 (Except.ok []) ⟨some [], 0, false⟩).state.cache_loading
      = true := by
  have h := claim_C1 600 0 [] false (Except.ok []) (by decide) (by decide)
  exact ⟨by decide, by decide, h.1, by simpa using h.2.2.1, h.2.2.2.2.2⟩

/-- C2: for every cache state in which no snapshot exists, or a snapshot
exists with age `>= 2*TTL`, `get_all_chunks` performs a synchronous refresh
and returns exactly that refresh call's result (and its state), launching no
background thread. -/
theorem claim_C2 (now : Int) (s : CacheState) (lr : Except String (List Chunk))
    (h : s.cache_data = none ∨ CACHE_TTL * 2 ≤ now - s.cache_timestamp) :
    get_all_chunks now lr s =
      { result := (_refresh_cache now lr s).1,
        state := (_refresh_cache now lr s).2,
        spawned := 0, syncRefresh := true } := by
  cases hd : s.cache_data with
  | none => simp [get_all_chunks, hd]
  | some d =>
      rcases h with h | h
      · rw [hd] at h; cases h
      · have hn1 : ¬ (now - s.cache_timestamp < CACHE_TTL) := by
          have : (0:Int) ≤ CACHE_TTL := by decide
          omega
        have hn2 : ¬ (now - s.cache_timestamp < CACHE_TTL * 2) := by omega
        simp [get_all_chunks, hd, hn1, hn2]

/-- Closed witness for `claim_C2` on the empty cache. -/
theorem claim_C2_witness :
    get_all_chunks 5 (Except.ok []) ⟨none, 0, false⟩ =
      { result := Except.ok [], state := ⟨some [], 5, false⟩,
        spawned := 0, syncRefresh := true } := by
  have h := claim_C2 5 ⟨none, 0, false⟩ (Except.ok []) (Or.inl rfl)
  exact h.trans (by decide)

/-- C3: whenever `_refresh_cache` fails, it clears the refreshing flag,
leaves the previously installed snapshot and its timestamp unchanged,
returns that previous snapshot if one exists, and propagates the failure to
the caller exactly when no previous snapshot exists. -/
theorem claim_C3 (now : Int) (e : String) (s : CacheState) :
    (_refresh_cache now (Except.error e) s).2.cache_loading = false ∧
    (_refresh_cache now (Except.error e) s).2.cache_data = s.cache_data ∧
    (_refresh_cache now (Except.error e) s).2.cache_timestamp
      = s.cache_timestamp ∧
    (_refresh_cache now (Except.error e) s).1 =
      (match s.cache_data with
       | some d => Except.ok d
       | none => Except.error e) := by
  cases hd : s.cache_data <;> simp [_refresh_cache, hd]

/-- C6 counterexample: at age 570 the snapshot's age exceeds
`CACHE_REFRESH_THRESHOLD` (540), yet `get_all_chunks` launches no background
refresh and performs no synchronous reload — the claim's trigger point is
wrong. -/
theorem claim_C6_counterexample :
    CACHE_REFRESH_THRESHOLD < (570 : Int) - 0 ∧
    (get_all_chunks 570 (Except.ok []) ⟨some [], 0, false⟩).spawned = 0 ∧
    (get_all_chunks 570 (Except.ok []) ⟨some [], 0, false⟩).syncRefresh
      = false ∧
    (get_all_chunks 570 (Except.ok []) ⟨some [], 0, false⟩).state
      = ⟨some [], 0, false⟩ := by decide

/-- C6 (amended): the cache defines `CACHE_TTL = 600` and
`CACHE_REFRESH_THRESHOLD = 540`, but the threshold constant is referenced
nowhere: for ages in `[540, 600)` a read returns the snapshot and triggers
no refresh at all, and a background refresh is first triggered once the age
reaches `CACHE_TTL` (600s), before full `2*TTL` expiry. -/
theorem claim_C6_amended :
    CACHE_TTL = 600 ∧ CACHE_REFRESH_THRESHOLD = 540 ∧
    (∀ (now ts : Int) (d : List Chunk) (lr : Except String (List Chunk)),
      CACHE_REFRESH_THRESHOLD ≤ now - ts → now - ts < CACHE_TTL →
      (get_all_chunks now lr ⟨some d, ts, false⟩).spawned = 0 ∧
      (get_all_chunks now lr ⟨some d, ts, false⟩).syncRefresh = false ∧
      (get_all_chunks now lr ⟨some d, ts, false⟩).result = Except.ok d) ∧
    (∀ (now ts : Int) (d : List Chunk) (lr : Except String (List Chunk)),
      CACHE_TTL ≤ now - ts → now - ts < CACHE_TTL * 2 →
      (get_all_chunks now lr ⟨some d, ts, false⟩).spawned = 1 ∧
      (get_all_chunks now lr ⟨some d, ts, false⟩).syncRefresh = false) := by
  refine ⟨rfl, rfl, ?_, ?_⟩
  · intro now ts d lr h1 h2
    simp [get_all_chunks, h2]
  · intro now ts d lr h1 h2
    have hn : ¬ (now - ts < CACHE_TTL) := by omega
    simp [get_all_chunks, hn, h2]

/-- Closed witness for `claim_C6_amended` at ages 570 (no trigger) and 600
(trigger). -/
theorem claim_C6_amended_witness :
    ((get_all_chunks 570 (Except.ok []) ⟨some [], 0, false⟩).spawned = 0 ∧
     (get_all_chunks 570 (Except.ok []) ⟨some [], 0, false⟩).syncRefresh
       = false) ∧
    (get_all_chunks 600 (Except.ok []) ⟨some [], 0, false⟩).spawned = 1 := by
  have h := claim_C6_amended
  have h570 := h.2.2.1 570 0 [] (Except.ok []) (by decide) (by decide)
  have h600 := h.2.2.2 600 0 [] (Except.ok []) (by decide) (by decide)
  exact ⟨⟨by simpa using h570.1, h570.2.1⟩, by simpa using h600.1⟩

/-! ### Claims about the chunker (`split_data_into_chunks`) -/

/-- A list with no five leading elements has at most four elements. -/
lemma length_le_four_of_no_five {α : Type} (l : List α)
    (h : ∀ (a b c d e : α) (t : List α), l = a :: b :: c :: d :: e :: t → False) :
    l.length ≤ 4 := by
  rcases l with _ | ⟨a, _ | ⟨b, _ | ⟨c, _ | ⟨d, _ | ⟨e, t⟩⟩⟩⟩⟩
  · simp
  · simp
  · simp
  · simp
  · simp
  · exact absurd rfl (h a b c d e t)

/-- On a non-empty input of at most four rows, `split_go` produces the single
final (possibly short) group. -/
lemma split_go_small (df : DataFrame) (src : String) (l : List Row)
    (h1 : l ≠ [])
    (h2 : ∀ (a b c d e : Row) (t : List Row),
      l = a :: b :: c :: d :: e :: t → False) :
    split_go df src l = [mkChunk df src l] := by
  rcases l with _ | ⟨a, _ | ⟨b, _ | ⟨c, _ | ⟨d, _ | ⟨e, t⟩⟩⟩⟩⟩
  · exact absurd rfl h1
  · simp [split_go]
  · simp [split_go]
  · simp [split_go]
  · simp [split_go]
  · exact absurd rfl (h2 a b c d e t)

/-- The chunk groups produced by `split_go`, concatenated in order, are
exactly the input rows. -/
lemma split_go_flatten (df : DataFrame) (src : String) (rows : List Row) :
    ((split_go df src rows).map (fun c => c.data)).flatten = rows := by
  induction rows using split_go.induct df src with
  | case1 => simp [split_go]
  | case2 r1 r2 r3 r4 r5 rest ih => simp [split_go, mkChunk]; exact ih
  | case3 l h1 h2 => simp [split_go, mkChunk]

/-- `split_go` returns the empty list exactly on empty input. -/
lemma split_go_eq_nil_iff (df : DataFrame) (src : String) (rows : List Row) :
    split_go df src rows = [] ↔ rows = [] := by
  rcases rows with _ | ⟨a, _ | ⟨b, _ | ⟨c, _ | ⟨d, _ | ⟨e, t⟩⟩⟩⟩⟩ <;>
    simp [split_go]

/-- Every chunk group produced by `split_go` has between 1 and 4 rows. -/
lemma split_go_data_len (df : DataFrame) (src : String) (rows : List Row) :
    ∀ c ∈ split_go df src rows, 0 < c.data.length ∧ c.data.length ≤ 4 := by
  induction rows using split_go.induct df src with
  | case1 => simp [split_go]
  | case2 r1 r2 r3 r4 r5 rest ih =>
      intro c hc
      rw [split_go] at hc
      rcases List.mem_cons.mp hc with h | h
      · subst h; simp [mkChunk]
      · exact ih c h
  | case3 l h1 h2 =>
      intro c hc
      have hne : l ≠ [] := fun hh => h1 hh
      rw [split_go_small df src l hne h2] at hc
      simp only [List.mem_singleton] at hc
      subst hc
      have hl4 : l.length ≤ 4 := length_le_four_of_no_five l h2
      have hl0 : 0 < l.length := List.length_pos.mpr hne
      constructor
      · simpa [mkChunk] using hl0
      · simpa [mkChunk] using hl4

/-- Every chunk group except possibly the last has exactly 4 rows. -/
lemma split_go_dropLast (df : DataFrame) (src : String) (rows : List Row) :
    ∀ c ∈ (split_go df src rows).dropLast, c.data.length = 4 := by
  induction rows using split_go.induct df src with
  | case1 => simp [split_go]
  | case2 r1 r2 r3 r4 r5 rest ih =>
      intro c hc
      rw [split_go] at hc
      have hne : split_go df src (r5 :: rest) ≠ [] := by
        rw [Ne, split_go_eq_nil_iff]; simp
      rw [List.dropLast_cons_of_ne_nil hne] at hc
      rcases List.mem_cons.mp hc with h | h
      · subst h; simp [mkChunk]
      · exact ih c h
  | case3 l h1 h2 =>
      intro c hc
      have hne : l ≠ [] := fun hh => h1 hh
      rw [split_go_small df src l hne h2] at hc
      simp at hc

/-- C4: for every input row sequence and source tag,
`split_data_into_chunks` partitions the rows into consecutive groups — the
concatenation of the produced groups, in order, is exactly the input row
list — every group is non-empty and has at most 4 rows, every group except
possibly the last has exactly 4 rows, an empty input yields no entries, and
the total number of rows across the produced entries equals the number of
input rows. -/
theorem claim_C4 (df : DataFrame) (source : String) :
    (((split_data_into_chunks df source).map (fun c => c.data)).flatten
      = df.rows) ∧
    (∀ c ∈ split_data_into_chunks df source,
      0 < c.data.length ∧ c.data.length ≤ 4) ∧
    (∀ c ∈ (split_data_into_chunks df source).dropLast, c.data.length = 4) ∧
    (df.rows = [] → split_data_into_chunks df source = []) ∧
    (((split_data_into_chunks df source).map (fun c => c.data.length)).sum
      = df.rows.length) := by
  refine ⟨split_go_flatten df source df.rows, split_go_data_len df source df.rows,
    split_go_dropLast df source df.rows, ?_, ?_⟩
  · intro h
    rw [split_data_into_chunks, split_go_eq_nil_iff]
    exact h
  · have h := congrArg List.length (split_go_flatten df source df.rows)
    rw [List.length_flatten, List.map_map] at h
    simpa using h

/-- Closed witness for `claim_C4` on a concrete 6-row source. -/
theorem claim_C4_witness :
    ((split_data_into_chunks
        ⟨[("c")], [[some ("a")], [some ("b")], [some ("c")], [some ("d")],
                   [some ("e")], [some ("f")]]⟩ ("verb")).map
      (fun c => c.data.length)).sum = 6 := by
  have h := claim_C4
    ⟨[("c")], [[some ("a")], [some ("b")], [some ("c")], [some ("d")],
               [some ("e")], [some ("f")]]⟩ ("verb")
  exact h.2.2.2.2

/-! ### Claims about slugs (chunker + loader) -/

/-- Every chunk produced by `split_go` is `mkChunk` of some non-empty group. -/
lemma mem_split_go (df : DataFrame) (src : String) (rows : List Row) :
    ∀ c ∈ split_go df src rows, ∃ g, g ≠ [] ∧ c = mkChunk df src g := by
  induction rows using split_go.induct df src with
  | case1 => simp [split_go]
  | case2 r1 r2 r3 r4 r5 rest ih =>
      intro c hc
      rw [split_go] at hc
      rcases List.mem_cons.mp hc with h | h
      · exact ⟨[r1, r2, r3, r4], by simp, h⟩
      · exact ih c h
  | case3 l h1 h2 =>
      intro c hc
      have hne : l ≠ [] := fun hh => h1 hh
      rw [split_go_small df src l hne h2] at hc
      simp only [List.mem_singleton] at hc
      exact ⟨l, hne, hc⟩

/-- The slug of a chunk built with a non-empty source tag is its base slug
followed by a dash and the tag. -/
lemma mkChunk_slug (df : DataFrame) (src : String) (g : List Row)
    (h : src ≠ "") :
    (mkChunk df src g).slug = base_slug (mkChunk df src g).title ++ ("-") ++ src := by
  simp [mkChunk, h]

/-- No string ending in "-verb" equals a string ending in "-adjective". -/
lemma verb_ne_adj (x y : String) :
    x ++ ("-") ++ ("verb") ≠ y ++ ("-") ++ ("adjective") := by
  intro h
  have hd := congrArg String.data h
  simp only [String.data_append] at hd
  have hrev := congrArg List.reverse hd
  simp only [List.reverse_append] at hrev
  simp at hrev

/-- Appending the same "-tag" suffix is injective. -/
lemma slug_cancel (x y s : String) (h : x ++ ("-") ++ s = y ++ ("-") ++ s) :
    x = y := by
  have hd := congrArg String.data h
  simp only [String.data_append] at hd
  exact String.ext (List.append_cancel_right (List.append_cancel_right hd))

/-- C8 (amended): every verb entry's slug is its base slug suffixed with
"-verb" and every adjective entry's slug is its base slug suffixed with
"-adjective"; any verb entry's slug differs from any adjective entry's slug;
and all slugs of the combined snapshot are pairwise distinct whenever equal
base *slugs* occur only across sources, never within one source. -/
theorem claim_C8_amended (df1 df2 : DataFrame) :
    (∀ c ∈ split_data_into_chunks df1 ("verb"),
      c.slug = base_slug c.title ++ ("-") ++ ("verb")) ∧
    (∀ c ∈ split_data_into_chunks df2 ("adjective"),
      c.slug = base_slug c.title ++ ("-") ++ ("adjective")) ∧
    (∀ c1 ∈ split_data_into_chunks df1 ("verb"),
      ∀ c2 ∈ split_data_into_chunks df2 ("adjective"), c1.slug ≠ c2.slug) ∧
    (((split_data_into_chunks df1 ("verb")).map
        (fun c => base_slug c.title)).Pairwise (fun a b => a ≠ b) →
     ((split_data_into_chunks df2 ("adjective")).map
        (fun c => base_slug c.title)).Pairwise (fun a b => a ≠ b) →
     ((split_data_into_chunks df1 ("verb")
         ++ split_data_into_chunks df2 ("adjective")).map
        (fun c => c.slug)).Pairwise (fun a b => a ≠ b)) := by
  have hv : ∀ c ∈ split_data_into_chunks df1 ("verb"),
      c.slug = base_slug c.title ++ ("-") ++ ("verb") := by
    intro c hc
    obtain ⟨g, _, rfl⟩ := mem_split_go df1 ("verb") df1.rows c hc
    exact mkChunk_slug df1 ("verb") g (by decide)
  have ha : ∀ c ∈ split_data_into_chunks df2 ("adjective"),
      c.slug = base_slug c.title ++ ("-") ++ ("adjective") := by
    intro c hc
    obtain ⟨g, _, rfl⟩ := mem_split_go df2 ("adjective") df2.rows c hc
    exact mkChunk_slug df2 ("adjective") g (by decide)
  have hcross : ∀ c1 ∈ split_data_into_chunks df1 ("verb"),
      ∀ c2 ∈ split_data_into_chunks df2 ("adjective"), c1.slug ≠ c2.slug := by
    intro c1 h1 c2 h2
    rw [hv c1 h1, ha c2 h2]
    exact verb_ne_adj (base_slug c1.title) (base_slug c2.title)
  refine ⟨hv, ha, hcross, ?_⟩
  intro hpv hpa
  rw [List.map_append, List.pairwise_append]
  rw [List.pairwise_map] at hpv hpa ⊢
  rw [List.pairwise_map]
  refine ⟨?_, ?_, ?_⟩
  · refine hpv.imp_of_mem ?_
    intro a b hma hmb hne heq
    exact hne (slug_cancel _ _ _ ((hv a hma).symm.trans (heq.trans (hv b hmb))))
  · refine hpa.imp_of_mem ?_
    intro a b hma hmb hne heq
    exact hne (slug_cancel _ _ _ ((ha a hma).symm.trans (heq.trans (ha b hmb))))
  · intro x hx y hy
    rw [List.mem_map] at hx hy
    obtain ⟨c1, hc1, rfl⟩ := hx
    obtain ⟨c2, hc2, rfl⟩ := hy
    exact hcross c1 hc1 c2 hc2

/-- Concrete source whose two groups have the distinct titles "A" and "a"
but the same base slug "a". -/
def dfTitleCase : DataFrame :=
  ⟨[("c1")], [[some ("A")], [some ("A")], [some ("A")], [some ("A")],
              [some ("a")], [some ("a")], [some ("a")], [some ("a")]]⟩

/-- C8 counterexample: in `dfTitleCase` equal base titles occur nowhere (the
two entry titles "A" and "a" are distinct and there is only one source), yet
the snapshot's slugs are "a-verb" and "a-verb" — not pairwise distinct. The
claim's hypothesis about equal base *titles* is too weak. -/
theorem claim_C8_counterexample :
    ((split_data_into_chunks dfTitleCase ("verb")).map
      (fun c => c.title)).Pairwise (fun a b => a ≠ b) ∧
    (split_data_into_chunks dfTitleCase ("verb")).map (fun c => c.slug)
      = [("a-verb"), ("a-verb")] ∧
    ¬ ((split_data_into_chunks dfTitleCase ("verb")).map
        (fun c => c.slug)).Pairwise (fun a b => a ≠ b) := by decide

/-- Concrete verb source with two groups (titles "miru", "suru"). -/
def dfVerbW : DataFrame :=
  ⟨[("c")], [[some ("miru")], [some ("miru")], [some ("miru")],
             [some ("miru")], [some ("suru")]]⟩

/-- Concrete adjective source with one group (title "suru", whose base slug
collides with the verb source's "suru" across sources). -/
def dfAdjW : DataFrame := ⟨[("c")], [[some ("suru")]]⟩

/-- Closed witness for `claim_C8_amended`: base-slug collisions only across
sources, all snapshot slugs pairwise distinct. -/
theorem claim_C8_amended_witness :
    ((split_data_into_chunks dfVerbW ("verb")
        ++ split_data_into_chunks dfAdjW ("adjective")).map
      (fun c => c.slug)).Pairwise (fun a b => a ≠ b) :=
  (claim_C8_amended dfVerbW dfAdjW).2.2.2 (by decide) (by decide)

/-- C10: for every group from a source with more than one column, a missing
(NaN) second-column cell in the group's first row yields the empty subtitle
(never the text "nan"), and a present cell yields its stripped string. -/
theorem claim_C10 (df : DataFrame) (source : String) (c : Chunk)
    (hc : c ∈ split_data_into_chunks df source)
    (hcols : 1 < df.columns.length)
    (r0 : Row) (rest : List Row) (hdata : c.data = r0 :: rest) :
    (r0.getD 1 none = none → c.subtitle = "") ∧
    (∀ v, r0.getD 1 none = some v → c.subtitle = pyStrip v) := by
  obtain ⟨g, hg, rfl⟩ := mem_split_go df source df.rows c hc
  have hdata' : g = r0 :: rest := hdata
  subst hdata'
  constructor
  · intro hnone
    rw [List.getD_eq_getElem?_getD] at hnone
    simp [mkChunk, hcols, hnone]
  · intro v hv
    rw [List.getD_eq_getElem?_getD] at hv
    simp [mkChunk, hcols, hv]

/-- Concrete two-column source whose single row has a missing second cell. -/
def dfSubW : DataFrame := ⟨[("A"), ("B")], [[some ("t"), none]]⟩

/-- Closed witness for `claim_C10`: the subtitle of the one chunk of
`dfSubW` is empty. -/
theorem claim_C10_witness :
    (mkChunk dfSubW ("verb") [[some ("t"), none]]).subtitle = "" := by
  have h := claim_C10 dfSubW ("verb")
    (mkChunk dfSubW ("verb") [[some ("t"), none]])
    (by decide) (by decide) [some ("t"), none] [] rfl
  exact h.1 rfl

/-! ### Claims about the loader (`load_data`) and initializer -/

/-- `load_data` raises its `FileNotFoundError` exactly when every configured
source is missing or parses to a table with zero rows. -/
lemma load_data_error_iff (env : Env) :
    load_data env = Except.error noCsvMsg ↔
      ((∀ df, env.verbCsv = some df → df.rows = []) ∧
       (∀ df, env.adjCsv = some df → df.rows = [])) := by
  obtain ⟨vc, ac⟩ := env
  have hsplit : ∀ (df : DataFrame) (s : String),
      split_data_into_chunks df s = [] ↔ df.rows = [] :=
    fun df s => split_go_eq_nil_iff df s df.rows
  cases vc <;> cases ac <;>
    simp [load_data, List.length_eq_zero, hsplit]

/-- C5 (amended): `load_data` skips a missing source path (the other
source's chunks are still served, with no error), and it fails with the
`NoSourcesError` message if and only if the combined chunk list is empty —
that is, every configured source is missing **or parses to zero rows**. In
particular both sources missing implies failure, but an existing source with
an empty table can also fail despite its path existing. -/
theorem claim_C5_amended (env : Env) :
    ((env.verbCsv = none ∧ env.adjCsv = none) →
      load_data env = Except.error noCsvMsg) ∧
    (load_data env = Except.error noCsvMsg ↔
      ((∀ df, env.verbCsv = some df → df.rows = []) ∧
       (∀ df, env.adjCsv = some df → df.rows = []))) ∧
    (∀ df, env.verbCsv = some df → env.adjCsv = none → df.rows ≠ [] →
      load_data env = Except.ok (split_data_into_chunks df ("verb"))) ∧
    (∀ df, env.adjCsv = some df → env.verbCsv = none → df.rows ≠ [] →
      load_data env = Except.ok (split_data_into_chunks df ("adjective"))) := by
  refine ⟨?_, load_data_error_iff env, ?_, ?_⟩
  · rintro ⟨hv, ha⟩
    rw [load_data_error_iff env]
    constructor
    · intro df h; rw [hv] at h; cases h
    · intro df h; rw [ha] at h; cases h
  · intro df hv ha hr
    have hnn : split_data_into_chunks df ("verb") ≠ [] := by
      rw [split_data_into_chunks, Ne, split_go_eq_nil_iff]; exact hr
    obtain ⟨vc, ac⟩ := env
    cases hv; cases ha
    simp [load_data, List.length_eq_zero, hnn]
  · intro df ha hv hr
    have hnn : split_data_into_chunks df ("adjective") ≠ [] := by
      rw [split_data_into_chunks, Ne, split_go_eq_nil_iff]; exact hr
    obtain ⟨vc, ac⟩ := env
    cases hv; cases ha
    simp [load_data, List.length_eq_zero, hnn]

/-- Closed witness for `claim_C5_amended`: a missing verb source is skipped
and the adjective source's chunks are served. -/
theorem claim_C5_amended_witness :
    load_data (Env.mk none (some ⟨[("c")], [[some ("ii")]]⟩)) =
      Except.ok (split_data_into_chunks ⟨[("c")], [[some ("ii")]]⟩
        ("adjective")) := by
  exact (claim_C5_amended (Env.mk none (some ⟨[("c")], [[some ("ii")]]⟩))).2.2.2
    ⟨[("c")], [[some ("ii")]]⟩ rfl rfl (by decide)

/-- C5 counterexample: the verb source path exists (but its table has zero
rows) and the adjective path is missing; at least one configured source path
exists, yet `load_data` still fails with the `NoSourcesError` message — the
claim's "if and only if all configured source paths are missing" is wrong. -/
theorem claim_C5_counterexample :
    (Env.mk (some ⟨[("c")], []⟩) none).verbCsv.isSome = true ∧
    load_data (Env.mk (some ⟨[("c")], []⟩) none)
      = Except.error noCsvMsg := by decide

/-- C9: when both configured source files are absent (and the process is in
its fresh state: not initialized, no snapshot), `ensure_initialized` fails
with the `NoSourcesError` message, the state at raise time is unchanged, and
the initialized flag remains false. -/
theorem claim_C9 (env : Env) (now : Int) (st : InitState)
    (hv : env.verbCsv = none) (ha : env.adjCsv = none)
    (hinit : st.initialized = false) (hcache : st.cache.cache_data = none) :
    ensure_initialized env now st = Except.error (noCsvMsg, st) ∧
    st.initialized = false := by
  refine ⟨?_, hinit⟩
  simp [ensure_initialized, hinit, hcache, hv, ha]

/-- Closed witness for `claim_C9` on the fresh process state. -/
theorem claim_C9_witness :
    ensure_initialized (Env.mk none none) 7 ⟨false, ⟨none, 0, false⟩⟩
      = Except.error (noCsvMsg, ⟨false, ⟨none, 0, false⟩⟩) :=
  (claim_C9 (Env.mk none none) 7 ⟨false, ⟨none, 0, false⟩⟩ rfl rfl rfl rfl).1

/-! ### Claims about search (`index` handler) -/

/-- `leadMatch` decides "needle is a leading segment of hay". -/
lemma leadMatch_iff (n h : List Char) :
    leadMatch n h = true ↔ ∃ t, h = n ++ t := by
  induction n generalizing h with
  | nil => simp [leadMatch]
  | cons a as ih =>
    cases h with
    | nil => simp [leadMatch]
    | cons b bs =>
      simp only [leadMatch, Bool.and_eq_true, beq_iff_eq, ih,
        List.cons_append, List.cons.injEq]
      constructor
      · rintro ⟨rfl, t, rfl⟩
        exact ⟨t, rfl, rfl⟩
      · rintro ⟨t, rfl, rfl⟩
        exact ⟨rfl, t, rfl⟩

/-- `containsSub` decides Python's substring operator `in`. -/
lemma containsSub_iff (n h : List Char) :
    containsSub n h = true ↔ ∃ pre post, h = pre ++ n ++ post := by
  induction h with
  | nil =>
    simp only [containsSub, List.isEmpty_iff]
    constructor
    · intro hn
      exact ⟨[], [], by simp [hn]⟩
    · rintro ⟨pre, post, hp⟩
      have h1 := List.append_eq_nil.mp hp.symm
      exact (List.append_eq_nil.mp h1.1).2
  | cons c cs ih =>
    simp only [containsSub, Bool.or_eq_true, leadMatch_iff, ih]
    constructor
    · rintro (⟨t, ht⟩ | ⟨pre, post, hp⟩)
      · exact ⟨[], t, by simpa using ht⟩
      · exact ⟨c :: pre, post, by simp [hp]⟩
    · rintro ⟨pre, post, hp⟩
      rcases pre with _ | ⟨p, ps⟩
      · exact Or.inl ⟨post, by simpa using hp⟩
      · simp only [List.cons_append, List.cons.injEq] at hp
        exact Or.inr ⟨ps, post, hp.2⟩

/-- `needle` occurs as a contiguous substring of `hay`. -/
def SubstrP (needle hay : List Char) : Prop :=
  ∃ pre post, hay = pre ++ needle ++ post

/-- The amended claim's match predicate, stated abstractly: the lowered
stripped query is a substring of the lowered title, or a substring of some
cell of the chunk's rows rendered by `astype(str)` (a missing cell renders
as "nan") and lowered. The code computes exactly this when the query is a
literal pattern (`claim_C7_amended`). -/
def MatchesRendered (q : String) (c : Chunk) : Prop :=
  SubstrP (lowerChars (pyStrip q).data) (lowerChars c.title.data) ∨
  ∃ i < c.columns.length, ∃ row ∈ c.data,
    SubstrP (lowerChars (pyStrip q).data)
      (lowerChars (cellStr (row.getD i none)).data)

/-- `litMatch` decides `MatchesRendered`. -/
lemma litMatch_iff (q : String) (c : Chunk) :
    litMatch (lowerChars (pyStrip q).data) c = true ↔ MatchesRendered q c := by
  simp [litMatch, MatchesRendered, SubstrP, containsSub_iff,
    List.any_eq_true, List.mem_range]

/-- A string is empty exactly when its character list is. -/
lemma str_data_empty_iff (s : String) : s.data.isEmpty = true ↔ s = "" := by
  rw [List.isEmpty_iff]
  constructor
  · intro h
    exact String.ext (h.trans rfl)
  · intro h
    rw [h]

/-- A non-empty string has a non-empty character list. -/
lemma pyStrip_data_not_empty {q : String} (h : pyStrip q ≠ "") :
    (pyStrip q).data.isEmpty = false := by
  rcases hb : (pyStrip q).data.isEmpty
  · rfl
  · exact absurd ((str_data_empty_iff _).mp hb) h

/-- On a literal pattern, the search loop's per-chunk outcome is the
substring-semantics match: the pattern compiles (no exception is raised)
and every regex search is the substring test. -/
lemma chunk_step_eq_litMatch (E : RegexEngine) (hE : LiteralRegexSemantics E)
    (ql : List Char) (hq : isLiteralPattern ql = true) (c : Chunk) :
    chunk_step E ql c = litMatch ql c := by
  obtain ⟨hc, hs⟩ := hE ql hq
  simp only [chunk_step, litMatch, hc, hs, if_true]
  cases ha : containsSub ql (lowerChars c.title.data) <;> simp [ha]

/-- C7 (amended): for every regex engine with the documented literal-pattern
semantics — Python's `re`, as pandas `Series.str.contains` invokes it with
its default `regex=True` — an empty or all-whitespace query returns the
empty result sequence; a non-empty stripped query **without regex
metacharacters** returns exactly the chunks, in cache order (a sublist of
the cache, all matches included), whose lowered title contains the lowered
query as a substring or in which some cell of some row, rendered as a string
with missing (NaN) cells rendered as "nan", contains it; and a query whose
stripped form does not compile as a regex makes every cell scan raise, so
exactly the title-matching chunks are returned (the rest are silently
skipped by the per-chunk handler). -/
theorem claim_C7_amended (E : RegexEngine) (q : String) (chunks : List Chunk) :
    (pyStrip q = "" → index_search E q chunks = []) ∧
    (LiteralRegexSemantics E → pyStrip q ≠ "" →
      isLiteralPattern (lowerChars (pyStrip q).data) = true →
      index_search E q chunks
        = chunks.filter (fun c => litMatch (lowerChars (pyStrip q).data) c) ∧
      List.Sublist (index_search E q chunks) chunks ∧
      (∀ c, litMatch (lowerChars (pyStrip q).data) c = true ↔
        MatchesRendered q c)) ∧
    (pyStrip q ≠ "" → E.compiles (lowerChars (pyStrip q).data) = false →
      index_search E q chunks
        = chunks.filter (fun c =>
            containsSub (lowerChars (pyStrip q).data)
              (lowerChars c.title.data))) := by
  refine ⟨?_, ?_, ?_⟩
  · intro h
    have he : (pyStrip q).data.isEmpty = true := (str_data_empty_iff _).mpr h
    simp [index_search, he]
  · intro hE h hq
    have he := pyStrip_data_not_empty h
    have hf : index_search E q chunks
        = chunks.filter (chunk_step E (lowerChars (pyStrip q).data)) := by
      simp [index_search, he]
    have hcong : chunks.filter (chunk_step E (lowerChars (pyStrip q).data))
        = chunks.filter (fun c => litMatch (lowerChars (pyStrip q).data) c) := by
      apply List.filter_congr
      intro c _
      exact chunk_step_eq_litMatch E hE _ hq c
    refine ⟨hf.trans hcong, ?_, fun c => litMatch_iff q c⟩
    rw [hf]
    exact List.filter_sublist chunks
  · intro h hcomp
    have he := pyStrip_data_not_empty h
    have hf : index_search E q chunks
        = chunks.filter (chunk_step E (lowerChars (pyStrip q).data)) := by
      simp [index_search, he]
    rw [hf]
    apply List.filter_congr
    intro c _
    simp only [chunk_step, hcomp]
    cases ha : containsSub (lowerChars (pyStrip q).data)
        (lowerChars c.title.data) <;> simp [ha]

/-- A concrete regex engine for witnesses and counterexamples: every pattern
compiles and searching is the substring test. On literal patterns this is
exactly what `re.search` does, so it satisfies `LiteralRegexSemantics`. -/
def substrEngine : RegexEngine :=
  ⟨fun _ => true, fun pat hay => containsSub pat hay⟩

/-- `substrEngine` has the documented literal-pattern semantics. -/
lemma substrEngine_literal : LiteralRegexSemantics substrEngine :=
  fun _ _ => ⟨rfl, fun _ => rfl⟩

/-- A concrete engine on which no pattern compiles, modelling a query that
is an invalid regular expression (every `str.contains` call raises). -/
def failEngine : RegexEngine := ⟨fun _ => false, fun _ _ => false⟩

/-- The literal predicate of claim C7: some actual cell **value** (a present
cell only) contains the query. -/
def MatchesClaimLit (q : String) (c : Chunk) : Prop :=
  SubstrP (lowerChars (pyStrip q).data) (lowerChars c.title.data) ∨
  ∃ row ∈ c.data, ∃ cell ∈ row, ∃ v, cell = some v ∧
    SubstrP (lowerChars (pyStrip q).data) (lowerChars v.data)

/-- A chunk whose single cell is missing (NaN) and whose title is "x". -/
def cNaN : Chunk := ⟨("x"), (""), ("x-verb"), ("verb"), [[none]], [("col")]⟩

/-- C7 counterexample: "nan" is a literal pattern, so `substrEngine` is a
faithful instance of the `re` engine for this query; searching for "nan"
returns the chunk `cNaN` even though its title does not contain "nan" and it
has no cell value at all — the code's `astype(str)` renders the missing cell
as the text "nan". The claim's "some cell value of some row contains the
query" does not hold of the returned entry. -/
theorem claim_C7_counterexample :
    LiteralRegexSemantics substrEngine ∧
    isLiteralPattern (lowerChars (pyStrip ("nan")).data) = true ∧
    index_search substrEngine ("nan") [cNaN] = [cNaN] ∧
    ¬ MatchesClaimLit ("nan") cNaN := by
  refine ⟨substrEngine_literal, by decide, by decide, ?_⟩
  rintro (h | h)
  · exact absurd ((containsSub_iff _ _).mpr h) (by decide)
  · obtain ⟨row, hrow, cell, hcell, v, hv, _⟩ := h
    have hr : row = [none] := by simpa [cNaN] using hrow
    subst hr
    have hc : cell = none := by simpa using hcell
    subst hc
    cases hv

/-- A chunk with title "Taberu" for the C7 witness. -/
def cTaberu : Chunk :=
  ⟨("Taberu"), (""), ("taberu-verb"), ("verb"), [[some ("taberu")]], [("c")]⟩

/-- Closed witness for `claim_C7_amended`: a whitespace query returns
nothing; an upper-case literal title-substring query returns the matching
chunk; a non-compiling query drops the chunk whose title does not match. -/
theorem claim_C7_amended_witness :
    index_search substrEngine ("  ") [cTaberu] = [] ∧
    index_search substrEngine ("TABE") [cTaberu] = [cTaberu] ∧
    index_search failEngine ("x(") [cTaberu] = [] := by
  refine ⟨?_, ?_, ?_⟩
  · exact (claim_C7_amended substrEngine ("  ") [cTaberu]).1 (by decide)
  · have h := ((claim_C7_amended substrEngine ("TABE") [cTaberu]).2.1
      substrEngine_literal (by decide) (by decide)).1
    exact h.trans (by decide)
  · have h := (claim_C7_amended failEngine ("x(") [cTaberu]).2.2
      (by decide) rfl
    exact h.trans (by decide)
